import Mathlib

/-!
Verification development for the DSBox dataset-preparation helper
(`dsbox/data/cleanup.py` and `dsbox/data/preprocessing.py`).

The pandas dataframe is modelled shallowly: a dataframe is a list of typed,
named columns together with a list of rows; each row carries its index label
(pandas keeps labels stable across `drop_duplicates` / `drop`) and a list of
cell values aligned with the column list.  Cell values model the Python value
universe the code manipulates: integers, strings, booleans and the float-NaN
missing marker.  Python `==` semantics are modelled by `pyEq` (NaN is not
equal to itself, `True == 1` and `False == 0` hold).  Fallible operations
(positional indexing, label-based drops, `int()` parsing) return `Except`,
mirroring the exceptions pandas/Python raise.

String primitives (`lower`, `strip`, `split(',')`, substring tests) are
written on character lists so that every definition evaluates by kernel
reduction.
-/

deriving instance DecidableEq for Except

/-- Python `str.lower()` (per-character lowering, ASCII-faithful). -/
def strLower (s : String) : String := String.mk (s.data.map Char.toLower)

/-- Helper for splitting a character list on a separator character. -/
def charListSplit (sep : Char) (acc : List Char) : List Char → List (List Char)
  | [] => [acc.reverse]
  | c :: rest =>
    if c == sep then acc.reverse :: charListSplit sep [] rest
    else charListSplit sep (c :: acc) rest

/-- Python `s.split(',')`: `""` yields `[""]`, like Python. -/
def strSplitComma (s : String) : List String :=
  (charListSplit ',' [] s.data).map String.mk

/-- Python `str.strip()`: drop leading and trailing whitespace. -/
def strTrim (s : String) : String :=
  String.mk (((s.data.dropWhile Char.isWhitespace).reverse.dropWhile
      Char.isWhitespace).reverse)

/-- Contiguous-sublist test on character lists (Python `needle in hay`). -/
def charListInfix (needle : List Char) : List Char → Bool
  | [] => needle.isEmpty
  | c :: rest => needle.isPrefixOf (c :: rest) || charListInfix needle rest

/-- Python substring containment `sub in hay`. -/
def strContainsSub (hay sub : String) : Bool := charListInfix sub.data hay.data

/-- A Python cell value as it occurs in the dataframes this code handles:
an int, a string, a bool, or the float-NaN missing marker. -/
inductive Value where
  | int (n : Int)
  | str (s : String)
  | bool (b : Bool)
  | na
deriving DecidableEq

/-- Python `==` on cell values: `True == 1`, `False == 0`, NaN equals
nothing (not even itself), different types otherwise compare unequal. -/
def pyEq : Value → Value → Bool
  | .int a, .int b => a == b
  | .int a, .bool b => a == (if b then (1 : Int) else 0)
  | .bool a, .int b => (if a then (1 : Int) else 0) == b
  | .bool a, .bool b => a == b
  | .str a, .str b => a == b
  | _, _ => false

/-- Value equality as pandas `duplicated` / `unique` and Python containers
effectively use it: like `pyEq`, except that the NaN marker is identified
with itself (pandas treats NaNs as equal when deduplicating; Python sets
deduplicate the shared NaN object by identity). -/
def valueEqPandas (a b : Value) : Bool :=
  (match a, b with | .na, .na => true | _, _ => false) || pyEq a b

/-- Lower-case a value when it is a string, otherwise leave it unchanged
(the `value.lower() if isinstance(value, str)` idiom). -/
def lowerValue : Value → Value
  | .str s => .str (strLower s)
  | v => v

/-- `pandas.isnull` on one cell. -/
def isNa : Value → Bool
  | .na => true
  | _ => false

/-- The declared dtype of a column. -/
inductive DType where
  | int32
  | int64
  | float64
  | boolType
  | objectType
deriving DecidableEq

/-- A named, typed dataframe column. -/
structure Col where
  name : String
  dtype : DType
deriving DecidableEq

/-- The dataframe model: columns, and rows each carrying its index label
(an integer, as produced by the default `RangeIndex`) plus its cell list. -/
structure DataFrame where
  cols : List Col
  rows : List (Int × List Value)
deriving DecidableEq

/-- `df.columns` as a list of names. -/
def colNames (df : DataFrame) : List String := df.cols.map Col.name

/-- `df.index` as the list of row labels. -/
def dfIndex (df : DataFrame) : List Int := df.rows.map Prod.fst

/-- The values of the column at position `j`, in row order. -/
def colValues (df : DataFrame) (j : Nat) : List Value :=
  df.rows.map (fun r => r.2.getD j .na)

/-- First-occurrence deduplication with accumulator of already-seen values;
models `pandas.Series.unique` (and Python `set` insertion) which use
`valueEqPandas`-style equality. -/
def pdUniqueAux (seen : List Value) : List Value → List Value
  | [] => []
  | v :: rest =>
    if seen.any (fun w => valueEqPandas w v) then pdUniqueAux seen rest
    else v :: pdUniqueAux (v :: seen) rest

/-- `pandas.Series.unique`: distinct values in order of first occurrence,
with all NaNs collapsed to one. -/
def pdUnique (l : List Value) : List Value := pdUniqueAux [] l

/-- Round-half-to-even of the fraction `a / d` (for `0 < d`), computed with
floor division so that everything reduces in the kernel. -/
def roundHalfEvenFrac (a d : Int) : Int :=
  let f : Int := a.fdiv d
  let r2 : Int := 2 * (a - d * f)
  if r2 < d then f
  else if d < r2 then f + 1
  else if f % 2 = 0 then f else f + 1

/-- Python `round` applied to `n * t` where `n` is an integer and `t` the
threshold (a float in the source, modelled as an exact rational):
round-half-to-even, computed on the exact fraction `n*t.num / t.den`. -/
def python_round_mul (n : Int) (t : ℚ) : Int :=
  roundHalfEvenFrac (n * t.num) (t.den : Int)

/-- The default `threshold=0.8` of the cleanup classifiers, as the exact
rational 4/5 (given directly in lowest terms so that `num`/`den` reduce). -/
def default_threshold : ℚ := ⟨4, 5, by norm_num, by norm_num⟩

/-! ## `dsbox/data/cleanup.py`: classifiers -/

/-- `identify_single_value_columns`: the columns whose count of distinct
values (`len(df[column].unique())`) is exactly 1. -/
def identify_single_value_columns (df : DataFrame) : List String :=
  ((df.cols.enum).filter
      (fun p => (pdUnique (colValues df p.1)).length == 1)).map
    (fun p => p.2.name)

/-- `__is_identifier_column_name`: case-insensitive exact match against
`"id"`, or case-sensitive containment of `"ID"`, `"Id"` or `"_id"`. -/
def is_identifier_column_name (column_name : String) : Bool :=
  strLower column_name == "id" || strContainsSub column_name "ID" ||
    strContainsSub column_name "Id" || strContainsSub column_name "_id"

/-- `df[column].dtypes in (np.int32, np.int64)`. -/
def isIntDtype : DType → Bool
  | .int32 => true
  | .int64 => true
  | _ => false

/-- `identify_potential_id_columns`: integer dtype and identifier-like name. -/
def identify_potential_id_columns (df : DataFrame) : List String :=
  (df.cols.filter
      (fun c => isIntDtype c.dtype && is_identifier_column_name c.name)).map
    Col.name

/-- Count of missing values in the column at position `j`. -/
def colNaCount (df : DataFrame) (j : Nat) : Nat :=
  (colValues df j).countP (fun v => isNa v)

/-- Insert into an insertion-ordered dict (`dict.to_dict()` model):
an existing key keeps its position and gets the new value. -/
def dictInsert (d : List (String × Nat)) (k : String) (v : Nat) :
    List (String × Nat) :=
  if d.any (fun p => p.1 == k) then
    d.map (fun p => if p.1 == k then (k, v) else p)
  else d ++ [(k, v)]

/-- `df.isnull().sum().to_dict()`: per-column missing-value counts, keyed by
column name. -/
def missing_values_count (df : DataFrame) : List (String × Nat) :=
  (df.cols.enum).foldl (fun d p => dictInsert d p.2.name (colNaCount df p.1)) []

/-- `identify_columns_with_majority_missing_values`: columns whose missing
count is at least `round(df.shape[0] * threshold)`. -/
def identify_columns_with_majority_missing_values (df : DataFrame)
    (threshold : ℚ) : List String :=
  let threshold_count := python_round_mul (df.rows.length : Int) threshold
  ((missing_values_count df).filter
      (fun p => threshold_count ≤ (p.2 : Int))).map Prod.fst

/-- `__process_cleanup_action`: `DROP_ALL` keeps the whole candidate list,
anything other than `NO_OP` is split on commas and stripped (and is NOT
filtered against the candidates), `NO_OP` yields the empty list. -/
def process_cleanup_action (action : String) (column_list : List String) :
    List String :=
  if strLower action == strLower "DROP_ALL" then column_list
  else if strLower action != strLower "NO_OP" then
    (strSplitComma action).map strTrim
  else []

/-- Count of missing values in one row. -/
def rowNaCount (cells : List Value) : Nat := cells.countP (fun v => isNa v)

/-- `df.iloc[idx]`: positional row access; negative positions index from the
end; out-of-range raises `IndexError` (modelled as `none`). -/
def ilocRow (df : DataFrame) (idx : Int) : Option (List Value) :=
  if 0 ≤ idx then (df.rows.get? idx.toNat).map Prod.snd
  else if -(df.rows.length : Int) ≤ idx then
    (df.rows.get? (df.rows.length - (-idx).toNat)).map Prod.snd
  else none

/-- The traversal inside `identify_rows_with_majority_missing_values`:
`[idx for idx in df.index if df.iloc[idx].isnull().sum() >= threshold_count]`.
Iterates over index LABELS but accesses rows POSITIONALLY, so a label that is
not a valid position raises `IndexError`. -/
def identifyRowsAux (df : DataFrame) (t : Int) :
    List Int → Except String (List Int)
  | [] => .ok []
  | l :: rest =>
    match ilocRow df l with
    | none => .error "IndexError"
    | some cells =>
      match identifyRowsAux df t rest with
      | .error e => .error e
      | .ok picked =>
        .ok (if t ≤ (rowNaCount cells : Int) then l :: picked else picked)

/-- `identify_rows_with_majority_missing_values`: rows whose missing count
over ALL columns is at least `round((df.shape[1] - 1) * threshold)` (the
`- 1` is a comment-documented allowance for a target column, but no column
is excluded from the tally itself). -/
def identify_rows_with_majority_missing_values (df : DataFrame)
    (threshold : ℚ) : Except String (List Int) :=
  identifyRowsAux df (python_round_mul ((df.cols.length : Int) - 1) threshold)
    (dfIndex df)

/-! ## `dsbox/data/cleanup.py`: mutations -/

/-- Row equality as `drop_duplicates` compares rows (NaNs count as equal). -/
def rowCellsEq (a b : List Value) : Bool :=
  a.length == b.length && (a.zip b).all (fun p => valueEqPandas p.1 p.2)

/-- Keep the first occurrence of every distinct row (cells compared with
`rowCellsEq`); index labels are preserved, as pandas does. -/
def dropDupRowsAux (seen : List (List Value)) :
    List (Int × List Value) → List (Int × List Value)
  | [] => []
  | r :: rest =>
    if seen.any (fun s => rowCellsEq s r.2) then dropDupRowsAux seen rest
    else r :: dropDupRowsAux (r.2 :: seen) rest

/-- `df.drop_duplicates(inplace=True)`. -/
def dropDuplicates (df : DataFrame) : DataFrame :=
  { df with rows := dropDupRowsAux [] df.rows }

/-- `df.drop(columns=names, inplace=True)`: every column whose name is in
`names` is removed, and every row loses the corresponding cells. -/
def dropColumns (df : DataFrame) (names : List String) : DataFrame :=
  { cols := df.cols.filter (fun c => !names.contains c.name),
    rows := df.rows.map (fun r =>
      (r.1, ((df.cols.zip r.2).filter
          (fun p => !names.contains p.1.name)).map Prod.snd)) }

/-- `df.drop(index=labels, inplace=True)`: raises `KeyError` when some label
is not present in the index, otherwise removes the labelled rows. -/
def dropRowsByLabel (df : DataFrame) (labels : List Int) :
    Except String DataFrame :=
  if labels.all (fun l => (dfIndex df).contains l) then
    .ok { df with rows := df.rows.filter (fun r => !labels.contains r.1) }
  else .error "KeyError"

/-! ## Python `int()` parsing and the row-instruction branch -/

def isAsciiDigit (c : Char) : Bool := '0' ≤ c && c ≤ '9'

/-- Digit-sequence parser for Python `int()`: nonempty digit run, single
underscores allowed strictly between digits. -/
def parseDigits : List Char → Option Nat → Option Nat
  | [], acc => acc
  | c :: rest, acc =>
    if isAsciiDigit c then
      parseDigits rest (some ((acc.getD 0) * 10 + (c.toNat - 48)))
    else if c == '_' then
      match acc, rest with
      | some n, d :: _ =>
        if isAsciiDigit d then parseDigits rest (some n) else none
      | _, _ => none
    else none

/-- Python `int(s)`: strips whitespace, optional sign, digits; raises
`ValueError` (modelled as `.error`) on anything else. -/
def pythonInt (s : String) : Except String Int :=
  let chars := (strTrim s).data
  match chars with
  | '+' :: rest =>
    match parseDigits rest none with
    | some n => .ok (n : Int)
    | none => .error ("ValueError: invalid literal for int: " ++ s)
  | '-' :: rest =>
    match parseDigits rest none with
    | some n => .ok (-(n : Int))
    | none => .error ("ValueError: invalid literal for int: " ++ s)
  | l =>
    match parseDigits l none with
    | some n => .ok (n : Int)
    | none => .error ("ValueError: invalid literal for int: " ++ s)

/-- `map(lambda x: int(x.strip()), action.split(','))`, with the evaluation
that Python defers until the iterator is consumed inside `df.drop`; the
`except RuntimeError` in the source never fires because `int()` raises
`ValueError` and because the lazy map is built, not run, inside the `try`,
so a parse failure escapes as an error. -/
def parseRowTokensAux : List String → Except String (List Int)
  | [] => .ok []
  | tok :: rest =>
    match pythonInt (strTrim tok) with
    | .error e => .error e
    | .ok n =>
      match parseRowTokensAux rest with
      | .error e => .error e
      | .ok l => .ok (n :: l)

/-- All comma tokens of the instruction parsed as integers. -/
def parseRowTokens (action : String) : Except String (List Int) :=
  parseRowTokensAux (strSplitComma action)

/-! ## The `cleanup` orchestrator -/

/-- One interactive column prompt of `cleanup`: when the candidate list is
nonempty the next scripted response is consumed and resolved, extending the
accumulated drop list (an exhausted script yields `""`). -/
def cleanupStep (acc : List String × List String) (cand : List String) :
    List String × List String :=
  if cand.isEmpty then acc
  else
    match acc.2 with
    | [] => (acc.1 ++ process_cleanup_action "" cand, [])
    | a :: rest => (acc.1 ++ process_cleanup_action a cand, rest)

/-- `cleanup(df, auto)`, with interactive `input()` responses supplied as a
script.  Mirrors the source: drop duplicate rows; classify single-value,
identifier and majority-missing columns; resolve the actions (in auto mode
all candidates are taken); filter the accumulated list against the current
columns and drop; classify majority-missing rows; resolve and drop rows.
In the interactive explicit-row branch the source reassigns
`missing_value_rows` to a lazy `filter` object, so after a successful
`df.drop` the `len(missing_value_rows)` in the following log line raises
`TypeError`; a token that does not parse raises `ValueError` inside
`df.drop`.  Both escapes are modelled as errors. -/
def cleanupRowsPhase (dfB : DataFrame) (auto : Bool)
    (inputs1 : List String) : Except String DataFrame :=
  match identify_rows_with_majority_missing_values dfB default_threshold with
  | .error e => .error e
  | .ok mvr =>
    if auto then
      if mvr.isEmpty then .ok dfB else dropRowsByLabel dfB mvr
    else
      if mvr.isEmpty then .ok dfB
      else
        let action := match inputs1 with | [] => "" | a :: _ => a
        if strLower action == strLower "NO_OP" ||
            strLower action == strLower "DROP_ALL" then
          dropRowsByLabel dfB mvr
        else
          match parseRowTokens action with
          | .error e => .error e
          | .ok toks =>
            match dropRowsByLabel dfB
                (toks.filter (fun x => x < (dfB.rows.length : Int))) with
            | .error e => .error e
            | .ok _ => .error "TypeError: object of type filter has no len()"

def cleanup (df0 : DataFrame) (auto : Bool) (inputs : List String) :
    Except String DataFrame :=
  let dfA := dropDuplicates df0
  let sv := identify_single_value_columns dfA
  let idc := identify_potential_id_columns dfA
  let mvc := identify_columns_with_majority_missing_values dfA
    default_threshold
  let resolved :=
    if auto then (sv ++ idc ++ mvc, inputs)
    else cleanupStep (cleanupStep (cleanupStep ([], inputs) sv) idc) mvc
  let columns_to_drop := resolved.1
  let dfB :=
    if columns_to_drop.isEmpty then dfA
    else dropColumns dfA
      (columns_to_drop.filter (fun c => (colNames dfA).contains c))
  cleanupRowsPhase dfB auto resolved.2

/-- `cleanup(df, auto=True)`. -/
def cleanupAuto (df : DataFrame) : Except String DataFrame :=
  cleanup df true []

/-! ## `dsbox/data/preprocessing.py` -/

/-- `__TRUE_VALUES_SET = {1, 'true', 'y', 'yes'}`. -/
def true_values_set : List Value :=
  [.int 1, .str "true", .str "y", .str "yes"]

/-- `__FALSE_VALUES_SET = {0, 'false', 'n', 'no'}`. -/
def false_values_set : List Value :=
  [.int 0, .str "false", .str "n", .str "no"]

/-- `__BOOLEAN_VALUES_SET`: the union of the two sets above. -/
def boolean_values_set : List Value := true_values_set ++ false_values_set

/-- Python `v in set_of_values` (membership by `==`). -/
def pyMem (v : Value) (s : List Value) : Bool := s.any (fun w => pyEq v w)

/-- The loop of `__is_boolean_value_column`: accumulates `has_true_value`,
`has_false_value` and the lower-cased `value_set`, then checks
`has_true and has_false and value_set.issubset(__BOOLEAN_VALUES_SET)`. -/
def isBooleanValueColumnGo (hasT hasF : Bool) (valueSet : List Value) :
    List Value → Bool
  | [] => hasT && hasF && valueSet.all (fun v => pyMem v boolean_values_set)
  | v :: rest =>
    let v' := lowerValue v
    let valueSet' :=
      if valueSet.any (fun w => valueEqPandas w v') then valueSet
      else valueSet ++ [v']
    if pyMem v' true_values_set then
      isBooleanValueColumnGo true hasF valueSet' rest
    else if pyMem v' false_values_set then
      isBooleanValueColumnGo hasT true valueSet' rest
    else isBooleanValueColumnGo hasT hasF valueSet' rest

/-- `__is_boolean_value_column(unique_values)`. -/
def is_boolean_value_column (unique_values : List Value) : Bool :=
  isBooleanValueColumnGo false false [] unique_values

/-- `df[col]` by name (first column with that name; the callers only pass
names of existing columns). -/
def colValuesByName (df : DataFrame) (name : String) : List Value :=
  match (df.cols.enum).find? (fun p => p.2.name == name) with
  | some p => colValues df p.1
  | none => []

/-- `identify_potential_boolean_columns`. -/
def identify_potential_boolean_columns (df : DataFrame) : List String :=
  ((df.cols.enum).filter
      (fun p => is_boolean_value_column (pdUnique (colValues df p.1)))).map
    (fun p => p.2.name)

/-- `__create_boolean_mapping_dict`: the set of distinct values across the
boolean columns, each mapped to `True` when its lower-cased form is in
`__TRUE_VALUES_SET`, to `False` when in `__FALSE_VALUES_SET`, and left
unmapped otherwise.  The dict is modelled as an association list whose keys
are the pairwise-distinct set elements. -/
def create_boolean_mapping_dict (df : DataFrame)
    (boolean_columns : List String) : List (Value × Bool) :=
  let unique_values := pdUniqueAux []
    ((boolean_columns.map (fun c => pdUnique (colValuesByName df c))).flatten)
  unique_values.filterMap (fun val =>
    let v := lowerValue val
    if pyMem v true_values_set then some (val, true)
    else if pyMem v false_values_set then some (val, false)
    else none)

/-! ## Proof layer: rounding lemmas -/

theorem roundHalfEvenFrac_ge_floor (a d : Int) :
    a.fdiv d ≤ roundHalfEvenFrac a d := by
  simp only [roundHalfEvenFrac]
  split_ifs <;> omega

theorem roundHalfEvenFrac_le_floor_add_one (a d : Int) :
    roundHalfEvenFrac a d ≤ a.fdiv d + 1 := by
  simp only [roundHalfEvenFrac]
  split_ifs <;> omega

theorem fdiv_mono_of_cross {a1 d1 a2 d2 : Int} (hd1 : 0 < d1) (hd2 : 0 < d2)
    (h : a1 * d2 ≤ a2 * d1) : a1.fdiv d1 ≤ a2.fdiv d2 := by
  have e1 : a1.fmod d1 + d1 * a1.fdiv d1 = a1 := Int.fmod_add_fdiv a1 d1
  have e2 : a2.fmod d2 + d2 * a2.fdiv d2 = a2 := Int.fmod_add_fdiv a2 d2
  have m1a : 0 ≤ a1.fmod d1 := Int.fmod_nonneg' a1 hd1
  have m1b : a1.fmod d1 < d1 := Int.fmod_lt_of_pos a1 hd1
  have m2a : 0 ≤ a2.fmod d2 := Int.fmod_nonneg' a2 hd2
  have m2b : a2.fmod d2 < d2 := Int.fmod_lt_of_pos a2 hd2
  by_contra hcon
  push_neg at hcon
  have hstep : a2.fdiv d2 + 1 ≤ a1.fdiv d1 := hcon
  nlinarith [mul_pos hd1 hd2, mul_le_mul_of_nonneg_left m2b.le hd1.le,
    mul_le_mul_of_nonneg_right hstep (mul_pos hd1 hd2).le]

theorem roundHalfEvenFrac_mono {a1 d1 a2 d2 : Int} (hd1 : 0 < d1)
    (hd2 : 0 < d2) (h : a1 * d2 ≤ a2 * d1) :
    roundHalfEvenFrac a1 d1 ≤ roundHalfEvenFrac a2 d2 := by
  have hf : a1.fdiv d1 ≤ a2.fdiv d2 := fdiv_mono_of_cross hd1 hd2 h
  rcases lt_or_eq_of_le hf with hlt | heq
  · calc roundHalfEvenFrac a1 d1 ≤ a1.fdiv d1 + 1 :=
          roundHalfEvenFrac_le_floor_add_one a1 d1
      _ ≤ a2.fdiv d2 := by omega
      _ ≤ roundHalfEvenFrac a2 d2 := roundHalfEvenFrac_ge_floor a2 d2
  · have e1 : a1.fmod d1 + d1 * a1.fdiv d1 = a1 := Int.fmod_add_fdiv a1 d1
    have e2 : a2.fmod d2 + d2 * a2.fdiv d2 = a2 := Int.fmod_add_fdiv a2 d2
    have m1a : 0 ≤ a1.fmod d1 := Int.fmod_nonneg' a1 hd1
    have m1b : a1.fmod d1 < d1 := Int.fmod_lt_of_pos a1 hd1
    have m2a : 0 ≤ a2.fmod d2 := Int.fmod_nonneg' a2 hd2
    have m2b : a2.fmod d2 < d2 := Int.fmod_lt_of_pos a2 hd2
    rw [heq] at e1
    have hmm : a1.fmod d1 * d2 ≤ a2.fmod d2 * d1 := by
      have h' := h
      rw [← e1, ← e2] at h'
      nlinarith [h']
    have r1 : a1 - d1 * (a2.fdiv d2) = a1.fmod d1 := by omega
    have r2 : a2 - d2 * (a2.fdiv d2) = a2.fmod d2 := by omega
    simp only [roundHalfEvenFrac]
    rw [heq, r1, r2]
    split_ifs <;> first
      | omega
      | nlinarith

theorem python_round_mul_mono (n : Int) (hn : 0 ≤ n) {t1 t2 : ℚ}
    (h : t1 ≤ t2) : python_round_mul n t1 ≤ python_round_mul n t2 := by
  have hq : t1.num * (t2.den : Int) ≤ t2.num * (t1.den : Int) := by
    have h1 : ((t1.num : ℚ) / (t1.den : ℚ)) ≤ (t2.num : ℚ) / (t2.den : ℚ) := by
      rw [Rat.num_div_den, Rat.num_div_den]; exact h
    rw [div_le_div_iff₀ (by positivity) (by positivity)] at h1
    exact_mod_cast h1
  apply roundHalfEvenFrac_mono (by positivity) (by positivity)
  calc (n * t1.num) * (t2.den : Int) = n * (t1.num * (t2.den : Int)) := by ring
    _ ≤ n * (t2.num * (t1.den : Int)) := mul_le_mul_of_nonneg_left hq hn
    _ = (n * t2.num) * (t1.den : Int) := by ring

/-! ## Claim C5: missing-value column classifier and the threshold -/

/-- C5: for thresholds `t1 ≤ t2`, every column flagged by
`identify_columns_with_majority_missing_values` at the higher threshold is
also flagged at the lower one — a lower threshold never yields fewer
flagged columns. -/
theorem majority_missing_columns_lower_threshold_superset
    (df : DataFrame) {t1 t2 : ℚ} (h : t1 ≤ t2) (c : String)
    (hc : c ∈ identify_columns_with_majority_missing_values df t2) :
    c ∈ identify_columns_with_majority_missing_values df t1 := by
  simp only [identify_columns_with_majority_missing_values, List.mem_map,
    List.mem_filter, decide_eq_true_eq] at hc ⊢
  obtain ⟨p, ⟨hp, hT⟩, hname⟩ := hc
  refine ⟨p, ⟨hp, ?_⟩, hname⟩
  have hmono := python_round_mul_mono (df.rows.length : Int)
    (by positivity) h
  omega

/-- A one-column, one-row dataframe whose single cell is missing. -/
def dfThresholdWitness : DataFrame := ⟨[⟨"A", .objectType⟩], [(0, [.na])]⟩

theorem majority_missing_columns_lower_threshold_superset_witness :
    ((1 : ℚ)/2 ≤ (1 : ℚ)) ∧
      "A" ∈ identify_columns_with_majority_missing_values dfThresholdWitness 1 ∧
      "A" ∈ identify_columns_with_majority_missing_values dfThresholdWitness
        ((1 : ℚ)/2) :=
  ⟨by norm_num, by decide,
    @majority_missing_columns_lower_threshold_superset dfThresholdWitness
      ((1 : ℚ)/2) 1 (by norm_num) "A" (by decide)⟩

/-! ## Python equality machinery -/

/-- The equality key of a value under Python `==`: ints and bools share the
numeric key, strings have a string key, NaN has no key (equal to nothing). -/
def pyKey : Value → Option (Int ⊕ String)
  | .int n => some (.inl n)
  | .bool b => some (.inl (if b then 1 else 0))
  | .str s => some (.inr s)
  | .na => none

theorem pyEq_iff_key {a b : Value} :
    pyEq a b = true ↔ ∃ k, pyKey a = some k ∧ pyKey b = some k := by
  cases a <;> cases b <;> simp [pyEq, pyKey] <;>
    first
      | exact eq_comm
      | (rename_i x y; cases x <;> cases y <;> simp)

theorem pyEq_congr {a b : Value} (h : pyEq a b = true) (c : Value) :
    pyEq a c = pyEq b c := by
  obtain ⟨k, ha, hb⟩ := pyEq_iff_key.mp h
  by_cases hc : pyEq b c = true
  · obtain ⟨k2, hb2, hc2⟩ := pyEq_iff_key.mp hc
    rw [hb] at hb2
    have : pyEq a c = true := pyEq_iff_key.mpr ⟨k, ha, by
      rw [hc2, ← hb2]⟩
    rw [this, hc]
  · have : ¬ pyEq a c = true := by
      intro hac
      obtain ⟨k2, ha2, hc2⟩ := pyEq_iff_key.mp hac
      rw [ha] at ha2
      exact hc (pyEq_iff_key.mpr ⟨k2, by rw [hb, ← ha2], hc2⟩)
    simp only [Bool.not_eq_true] at this hc
    rw [this, hc]

theorem pyEq_na_left (v : Value) : pyEq .na v = false := by
  cases v <;> rfl

theorem pyMem_congr {a b : Value} (h : valueEqPandas a b = true)
    (s : List Value) : pyMem a s = pyMem b s := by
  rcases Bool.or_eq_true_iff.mp (by simpa [valueEqPandas] using h) with hna | hab
  · have hna' : a = .na ∧ b = .na := by
      cases a <;> cases b <;> simp_all
    rw [hna'.1, hna'.2]
  · have hfun : (fun w => pyEq a w) = (fun w => pyEq b w) :=
      funext (fun w => pyEq_congr hab w)
    simp only [pyMem, hfun]

/-! ## Claim C6: the boolean-column predicate -/

theorem pyMem_boolean_split (v : Value) :
    pyMem v boolean_values_set =
      (pyMem v true_values_set || pyMem v false_values_set) := by
  simp [boolean_values_set, pyMem]

/-- A value equal to a true-literal is not equal to any false-literal:
the two keyword sets are disjoint under Python equality. -/
theorem true_false_sets_disjoint (v : Value)
    (h : pyMem v true_values_set = true) :
    pyMem v false_values_set = false := by
  rw [Bool.eq_false_iff]
  intro hf
  simp only [pyMem, List.any_eq_true] at h hf
  obtain ⟨w, hw, hvw⟩ := h
  obtain ⟨u, hu, hvu⟩ := hf
  obtain ⟨k1, hv1, hw1⟩ := pyEq_iff_key.mp hvw
  obtain ⟨k2, hv2, hu2⟩ := pyEq_iff_key.mp hvu
  rw [hv1] at hv2
  have hk : k1 = k2 := by injection hv2
  rw [← hk] at hu2
  simp only [true_values_set] at hw
  simp only [false_values_set] at hu
  fin_cases hw <;> fin_cases hu <;>
    · simp only [pyKey] at hw1 hu2
      rw [← hw1] at hu2
      simp at hu2

/-- Adding the lower-cased value to the accumulated `value_set` (a Python
set add: skipped when an equal element is present) interacts with the
subset check exactly as appending does. -/
theorem valueSetAdd_all (vs : List Value) (v' : Value) (s : List Value) :
    ((if vs.any (fun w => valueEqPandas w v') then vs
      else vs ++ [v']).all (fun w => pyMem w s)) =
      (vs.all (fun w => pyMem w s) && pyMem v' s) := by
  split_ifs with hadd
  · cases hall : vs.all (fun w => pyMem w s) with
    | false => simp [hall]
    | true =>
      obtain ⟨w, hw, hweq⟩ := List.any_eq_true.mp hadd
      have := List.all_eq_true.mp hall w hw
      rw [Bool.true_and, ← pyMem_congr hweq s, this]
  · simp [List.all_append]

/-- Loop invariant for `__is_boolean_value_column`: the fold computes the
two existential flags and the subset check over all lower-cased values. -/
theorem isBooleanValueColumnGo_spec (l : List Value) : ∀ hasT hasF vs,
    isBooleanValueColumnGo hasT hasF vs l =
      ((hasT || l.any (fun v => pyMem (lowerValue v) true_values_set)) &&
       ((hasF || l.any (fun v => pyMem (lowerValue v) false_values_set)) &&
        (vs.all (fun v => pyMem v boolean_values_set) &&
         l.all (fun v => pyMem (lowerValue v) boolean_values_set)))) := by
  induction l with
  | nil =>
    intro hasT hasF vs
    simp [isBooleanValueColumnGo, Bool.and_assoc]
  | cons v rest ih =>
    intro hasT hasF vs
    simp only [isBooleanValueColumnGo, List.any_cons, List.all_cons]
    by_cases hT : pyMem (lowerValue v) true_values_set
    · rw [if_pos hT, ih, valueSetAdd_all]
      have hF : pyMem (lowerValue v) false_values_set = false :=
        true_false_sets_disjoint _ hT
      have hB : pyMem (lowerValue v) boolean_values_set = true := by
        rw [pyMem_boolean_split, hT, Bool.true_or]
      rw [hT, hF, hB]
      cases vs.all (fun w => pyMem w boolean_values_set) <;>
        cases rest.all (fun w => pyMem (lowerValue w) boolean_values_set) <;>
        cases hasF <;>
        cases rest.any (fun w => pyMem (lowerValue w) false_values_set) <;>
        simp
    · rw [if_neg hT]
      simp only [Bool.not_eq_true] at hT
      by_cases hF : pyMem (lowerValue v) false_values_set
      · rw [if_pos hF, ih, valueSetAdd_all]
        have hB : pyMem (lowerValue v) boolean_values_set = true := by
          rw [pyMem_boolean_split, hF, Bool.or_true]
        rw [hT, hF, hB]
        cases vs.all (fun w => pyMem w boolean_values_set) <;>
          cases rest.all (fun w => pyMem (lowerValue w) boolean_values_set) <;>
          cases hasT <;>
          cases rest.any (fun w => pyMem (lowerValue w) true_values_set) <;>
          simp
      · rw [if_neg hF, ih, valueSetAdd_all]
        simp only [Bool.not_eq_true] at hF
        have hB : pyMem (lowerValue v) boolean_values_set = false := by
          rw [pyMem_boolean_split, hT, hF]; rfl
        rw [hT, hF, hB]
        cases vs.all (fun w => pyMem w boolean_values_set) <;> simp

/-- The boolean-column predicate as the specification words it: the set of
distinct values, lower-cased, must be a non-empty subset of the eight
boolean literals and contain at least one true-literal and at least one
false-literal. -/
def is_boolean_value_column_spec (unique_values : List Value) : Bool :=
  let lowered := unique_values.map lowerValue
  !lowered.isEmpty && lowered.all (fun v => pyMem v boolean_values_set) &&
    lowered.any (fun v => pyMem v true_values_set) &&
    lowered.any (fun v => pyMem v false_values_set)

/-- C6: a column is flagged by `__is_boolean_value_column` exactly when its
distinct values, lower-cased, form a non-empty subset of
`{1, 0, "true", "false", "y", "n", "yes", "no"}` containing at least one
true-mapping and one false-mapping value; in particular
`{"Y","N","yes","no"}` qualifies and `{"Y","maybe"}` does not. -/
theorem boolean_value_column_characterization :
    (∀ l, is_boolean_value_column l = is_boolean_value_column_spec l) ∧
    is_boolean_value_column
      [.str "Y", .str "N", .str "yes", .str "no"] = true ∧
    is_boolean_value_column [.str "Y", .str "maybe"] = false := by
  refine ⟨fun l => ?_, by decide, by decide⟩
  rw [is_boolean_value_column, isBooleanValueColumnGo_spec]
  cases l with
  | nil => simp [is_boolean_value_column_spec]
  | cons v rest =>
    simp only [is_boolean_value_column_spec, List.any_map, List.all_map,
      Function.comp_def, List.map_cons, List.isEmpty_cons, Bool.not_false,
      Bool.true_and, List.all_nil, Bool.false_or, List.any_cons,
      List.all_cons, List.map_nil]
    cases hT : pyMem (lowerValue v) true_values_set <;>
      cases hF : pyMem (lowerValue v) false_values_set <;>
      cases hTr : rest.any (fun x => pyMem (lowerValue x) true_values_set) <;>
      cases hFr : rest.any (fun x => pyMem (lowerValue x) false_values_set) <;>
      cases hB : pyMem (lowerValue v) boolean_values_set <;>
      cases hBr : rest.all (fun x => pyMem (lowerValue x) boolean_values_set) <;>
      simp

/-! ## Claim C7: identifier-column classifier -/

theorem isIntDtype_iff (d : DType) :
    isIntDtype d = true ↔ (d = DType.int32 ∨ d = DType.int64) := by
  cases d <;> simp [isIntDtype]

theorem is_identifier_column_name_iff (s : String) :
    is_identifier_column_name s = true ↔
      (strLower s = "id" ∨ strContainsSub s "ID" = true ∨
       strContainsSub s "Id" = true ∨ strContainsSub s "_id" = true) := by
  simp only [is_identifier_column_name, Bool.or_eq_true, beq_iff_eq]
  tauto

/-- C7: a column name appears in `identify_potential_id_columns` exactly
when some column of the dataframe has this name, a fixed-width integer
dtype (`np.int32` / `np.int64`), and a name that equals `"id"`
case-insensitively or contains one of the case-sensitive substrings
`"ID"`, `"Id"`, `"_id"`. -/
theorem potential_id_columns_characterization (df : DataFrame)
    (name : String) :
    name ∈ identify_potential_id_columns df ↔
      ∃ c, c ∈ df.cols ∧ c.name = name ∧
        (c.dtype = DType.int32 ∨ c.dtype = DType.int64) ∧
        (strLower name = "id" ∨ strContainsSub name "ID" = true ∨
         strContainsSub name "Id" = true ∨
         strContainsSub name "_id" = true) := by
  simp only [identify_potential_id_columns, List.mem_map, List.mem_filter,
    Bool.and_eq_true, isIntDtype_iff, is_identifier_column_name_iff]
  constructor
  · rintro ⟨c, ⟨hc, hd, hn⟩, rfl⟩
    exact ⟨c, hc, rfl, hd, hn⟩
  · rintro ⟨c, hc, rfl, hd, hn⟩
    exact ⟨c, ⟨hc, hd, hn⟩, rfl⟩

/-! ## Claim C8: the boolean mapping is single-valued -/

theorem pyEq_symm (a b : Value) : pyEq a b = pyEq b a := by
  cases h : pyEq a b with
  | true =>
    obtain ⟨k, ha, hb⟩ := pyEq_iff_key.mp h
    exact (pyEq_iff_key.mpr ⟨k, hb, ha⟩).symm
  | false =>
    cases h2 : pyEq b a with
    | false => rfl
    | true =>
      obtain ⟨k, hb, ha⟩ := pyEq_iff_key.mp h2
      exact absurd (pyEq_iff_key.mpr ⟨k, ha, hb⟩) (by simp [h])

theorem valueEqPandas_symm (a b : Value) :
    valueEqPandas a b = valueEqPandas b a := by
  unfold valueEqPandas
  rw [pyEq_symm]
  congr 1
  cases a <;> cases b <;> rfl

theorem pdUniqueAux_not_seen :
    ∀ (l seen : List Value) (v : Value), v ∈ pdUniqueAux seen l →
      ∀ w ∈ seen, valueEqPandas w v = false := by
  intro l
  induction l with
  | nil =>
    intro seen v hv
    simp [pdUniqueAux] at hv
  | cons u rest ih =>
    intro seen v hv w hw
    simp only [pdUniqueAux] at hv
    split_ifs at hv with hadd
    · exact ih seen v hv w hw
    · rcases List.mem_cons.mp hv with rfl | hv'
      · have := List.any_eq_false.mp (by simpa using hadd) w hw
        simpa using this
      · exact ih (u :: seen) v hv' w (List.mem_cons_of_mem u hw)

theorem pdUniqueAux_pairwise :
    ∀ (l seen : List Value),
      (pdUniqueAux seen l).Pairwise (fun a b => valueEqPandas a b = false) := by
  intro l
  induction l with
  | nil => intro seen; simp [pdUniqueAux]
  | cons u rest ih =>
    intro seen
    simp only [pdUniqueAux]
    split_ifs with hadd
    · exact ih seen
    · exact List.Pairwise.cons
        (fun b hb => pdUniqueAux_not_seen rest (u :: seen) b hb u
          (List.mem_cons_self u seen))
        (ih (u :: seen))

/-- C8: `__create_boolean_mapping_dict` never assigns two different boolean
literals to Python-equal keys: the mapping built from the union of the
boolean columns' distinct values is single-valued. -/
theorem boolean_mapping_never_both (df : DataFrame) (bcols : List String)
    {v1 v2 : Value} {b1 b2 : Bool}
    (h1 : (v1, b1) ∈ create_boolean_mapping_dict df bcols)
    (h2 : (v2, b2) ∈ create_boolean_mapping_dict df bcols)
    (heq : pyEq v1 v2 = true) : b1 = b2 := by
  simp only [create_boolean_mapping_dict, List.mem_filterMap] at h1 h2
  obtain ⟨a1, ha1, hf1⟩ := h1
  obtain ⟨a2, ha2, hf2⟩ := h2
  have extract : ∀ (a v : Value) (b : Bool),
      (if pyMem (lowerValue a) true_values_set then some (a, true)
       else if pyMem (lowerValue a) false_values_set then some (a, false)
       else none) = some (v, b) → a = v ∧
        (if pyMem (lowerValue v) true_values_set then some (v, true)
         else if pyMem (lowerValue v) false_values_set then some (v, false)
         else none) = some (v, b) := by
    intro a v b h
    split_ifs at h with ht hf
    · obtain ⟨rfl, rfl⟩ : a = v ∧ true = b := by
        cases h; exact ⟨rfl, rfl⟩
      exact ⟨rfl, by rw [if_pos ht]⟩
    · obtain ⟨rfl, rfl⟩ : a = v ∧ false = b := by
        cases h; exact ⟨rfl, rfl⟩
      exact ⟨rfl, by rw [if_neg ht, if_pos hf]⟩
  obtain ⟨rfl, hv1⟩ := extract a1 v1 b1 hf1
  obtain ⟨rfl, hv2⟩ := extract a2 v2 b2 hf2
  by_cases hsame : a1 = a2
  · subst hsame
    have h12 := hv1.symm.trans hv2
    exact congrArg Prod.snd (Option.some.inj h12)
  · have hpair := pdUniqueAux_pairwise
      ((bcols.map (fun c => pdUnique (colValuesByName df c))).flatten) []
    have hsymm : Symmetric (fun a b : Value => valueEqPandas a b = false) := by
      intro a b h
      show valueEqPandas b a = false
      rw [valueEqPandas_symm]
      exact h
    have hne : valueEqPandas a1 a2 = false := hpair.forall hsymm ha1 ha2 hsame
    have htrue : valueEqPandas a1 a2 = true := by
      simp [valueEqPandas, heq]
    rw [hne] at htrue
    exact Bool.noConfusion htrue

/-- A two-row dataframe with one boolean-like column. -/
def dfBooleanWitness : DataFrame :=
  ⟨[⟨"b", .objectType⟩], [(0, [.str "Y"]), (1, [.str "n"])]⟩

theorem boolean_mapping_never_both_witness :
    (Value.str "Y", true) ∈ create_boolean_mapping_dict dfBooleanWitness ["b"] ∧
    pyEq (Value.str "Y") (Value.str "Y") = true ∧ (true : Bool) = true :=
  ⟨by decide, by decide,
    @boolean_mapping_never_both dfBooleanWitness ["b"] (.str "Y") (.str "Y")
      true true (by decide) (by decide) (by decide)⟩

/-! ## Claim C9: the keyword instructions -/

/-- C9: for a nonempty candidate list, any casing of `DROP_ALL` makes
`__process_cleanup_action` return the candidate list unchanged, and any
casing of `NO_OP` makes it return the empty list. -/
theorem process_cleanup_action_keywords (action : String)
    (cands : List String) (_hne : cands ≠ []) :
    (strLower action = strLower "DROP_ALL" →
       process_cleanup_action action cands = cands) ∧
    (strLower action = strLower "NO_OP" →
       process_cleanup_action action cands = []) := by
  constructor
  · intro h
    simp [process_cleanup_action, h]
  · intro h
    have hne2 : ¬ strLower "NO_OP" = strLower "DROP_ALL" := by decide
    simp [process_cleanup_action, h, hne2]

theorem process_cleanup_action_keywords_witness :
    (["a", "b"] : List String) ≠ [] ∧
    process_cleanup_action "DrOp_AlL" ["a", "b"] = ["a", "b"] ∧
    process_cleanup_action "nO_oP" ["a", "b"] = [] :=
  ⟨by decide,
   (process_cleanup_action_keywords "DrOp_AlL" ["a", "b"] (by decide)).1
     (by decide),
   (process_cleanup_action_keywords "nO_oP" ["a", "b"] (by decide)).2
     (by decide)⟩

/-! ## Claim C1: the explicit-list instruction is not filtered by the
resolver -/

/-- C1 counterexample: `__process_cleanup_action` returns every trimmed
token, including `"zzz"` which is not among the candidates — the resolver
itself does no filtering, so resolving `"a,zzz"` against `["a","b"]` does
not yield `{"a"}`. -/
theorem process_cleanup_action_no_filter_counterexample :
    process_cleanup_action "a,zzz" ["a", "b"] = ["a", "zzz"] ∧
    "zzz" ∈ process_cleanup_action "a,zzz" ["a", "b"] ∧
    "zzz" ∉ (["a", "b"] : List String) := by decide

/-- A dataframe whose current columns are exactly `a` and `b`. -/
def dfColumnsAB : DataFrame :=
  ⟨[⟨"a", .objectType⟩, ⟨"b", .objectType⟩], []⟩

/-- C1 amended: for a non-keyword instruction the resolver returns all
comma-split, whitespace-trimmed tokens unfiltered; unknown tokens are
discarded only afterwards by the orchestrator's filter of the accumulated
drop list against the current dataframe columns (cleanup.py line 143); that
composition applied to `"a,zzz"` with current columns `a`, `b` yields
exactly `["a"]`. -/
theorem process_cleanup_action_filter_amended (action : String)
    (cands : List String) (df : DataFrame) (c : String)
    (h1 : ¬ strLower action = strLower "DROP_ALL")
    (h2 : ¬ strLower action = strLower "NO_OP") :
    ((c ∈ (process_cleanup_action action cands).filter
        (fun x => (colNames df).contains x)) ↔
      (c ∈ (strSplitComma action).map strTrim ∧ c ∈ colNames df)) ∧
    (process_cleanup_action "a,zzz" ["a", "b"]).filter
        (fun x => (colNames dfColumnsAB).contains x) = ["a"] := by
  refine ⟨?_, by decide⟩
  have hres : process_cleanup_action action cands =
      (strSplitComma action).map strTrim := by
    simp [process_cleanup_action, h1, h2]
  rw [hres]
  simp [List.mem_filter]

theorem process_cleanup_action_filter_amended_witness :
    (¬ strLower "a,zzz" = strLower "DROP_ALL") ∧
    (¬ strLower "a,zzz" = strLower "NO_OP") ∧
    (("a" ∈ (process_cleanup_action "a,zzz" ["a", "b"]).filter
        (fun x => (colNames dfColumnsAB).contains x)) ↔
      ("a" ∈ (strSplitComma "a,zzz").map strTrim ∧
        "a" ∈ colNames dfColumnsAB)) :=
  ⟨by decide, by decide,
    (process_cleanup_action_filter_amended "a,zzz" ["a", "b"] dfColumnsAB "a"
      (by decide) (by decide)).1⟩

/-! ## Claim C2: malformed row instructions raise -/

/-- A dataframe with no column candidates and one majority-missing row, so
that interactive cleanup asks exactly one question: the row instruction. -/
def dfRowPrompt : DataFrame :=
  ⟨[⟨"A", .objectType⟩, ⟨"B", .objectType⟩],
   [(0, [.str "p", .str "q"]), (1, [.na, .na])]⟩

/-- C2: the row-instruction branch is NOT exception-safe.  The `try` block
only builds a lazy `filter(map(int, ...))`; the parse runs later, inside
`df.drop`, and `int("abc")` raises `ValueError`, which the
`except RuntimeError` clause could not catch anyway.  Interactive cleanup
on a malformed row instruction therefore escapes with the error instead of
degrading to an empty selection. -/
theorem cleanup_malformed_row_instruction_raises :
    cleanup dfRowPrompt false ["abc"] =
      .error "ValueError: invalid literal for int: abc" := by decide

/-! ## Claim C3: the row-missing tally excludes no column -/

/-- Missing-value count of a row with the column at position `j` excluded
(what the claim says the classifier tallies). -/
def rowNaCountExcluding (cells : List Value) (j : Nat) : Nat :=
  ((cells.enum).filter (fun p => !(p.1 == j))).countP (fun p => isNa p.2)

/-- A 2x2 dataframe whose missing values sit on the diagonal. -/
def dfDiagonalNa : DataFrame :=
  ⟨[⟨"A", .objectType⟩, ⟨"B", .objectType⟩],
   [(0, [.na, .str "u"]), (1, [.str "v", .na])]⟩

/-- C3 counterexample: at threshold 1 on the diagonal dataframe the
classifier flags both rows, yet for EVERY choice of a reserved column `j`
the claimed rule (flag iff the tally excluding column `j` reaches
`round((ncols-1)*t)`) disagrees on some row: the tally includes all
columns, none is excluded. -/
theorem majority_missing_rows_tally_counterexample :
    identify_rows_with_majority_missing_values dfDiagonalNa 1 = .ok [0, 1] ∧
    ¬ ∃ j ∈ List.range dfDiagonalNa.cols.length,
        ∀ l ∈ dfIndex dfDiagonalNa,
          (l ∈ ([0, 1] : List Int) ↔
            python_round_mul ((dfDiagonalNa.cols.length : Int) - 1) 1 ≤
              (rowNaCountExcluding ((ilocRow dfDiagonalNa l).getD []) j :
                Int)) := by
  decide

/-- C3 amended: a row label is flagged by
`identify_rows_with_majority_missing_values` iff it is a label of the
dataframe and the positional row it selects has at least
`round((column_count - 1) * t)` missing values counted over ALL columns —
the `- 1` appears only in the threshold, no column is excluded from the
tally. -/
theorem majority_missing_rows_tally_amended (df : DataFrame) (t : ℚ)
    (res : List Int)
    (h : identify_rows_with_majority_missing_values df t = .ok res)
    (l : Int) :
    l ∈ res ↔ (l ∈ dfIndex df ∧ ∃ cells, ilocRow df l = some cells ∧
      python_round_mul ((df.cols.length : Int) - 1) t ≤
        (rowNaCount cells : Int)) := by
  have aux : ∀ (T : Int) (ls res2 : List Int),
      identifyRowsAux df T ls = .ok res2 →
      ∀ x, x ∈ res2 ↔ (x ∈ ls ∧ ∃ cells, ilocRow df x = some cells ∧
        T ≤ (rowNaCount cells : Int)) := by
    intro T ls
    induction ls with
    | nil =>
      intro res2 h2 x
      simp only [identifyRowsAux] at h2
      cases h2
      simp
    | cons y rest ih =>
      intro res2 h2 x
      simp only [identifyRowsAux] at h2
      cases hy : ilocRow df y with
      | none => rw [hy] at h2; cases h2
      | some cells =>
        rw [hy] at h2
        cases hr : identifyRowsAux df T rest with
        | error e => rw [hr] at h2; cases h2
        | ok picked =>
          rw [hr] at h2
          have hres2 : res2 =
              if T ≤ (rowNaCount cells : Int) then y :: picked else picked := by
            cases h2; rfl
          subst hres2
          have ihm := ih picked hr
          by_cases hc : T ≤ (rowNaCount cells : Int)
          · rw [if_pos hc]
            simp only [List.mem_cons, ihm x]
            constructor
            · rintro (rfl | ⟨hl, hcells⟩)
              · exact ⟨Or.inl rfl, cells, hy, hc⟩
              · exact ⟨Or.inr hl, hcells⟩
            · rintro ⟨hmem, cells2, hiloc, hT⟩
              rcases hmem with rfl | hl
              · exact Or.inl rfl
              · exact Or.inr ⟨hl, cells2, hiloc, hT⟩
          · rw [if_neg hc]
            rw [ihm x]
            constructor
            · rintro ⟨hl, hcells⟩
              exact ⟨List.mem_cons_of_mem y hl, hcells⟩
            · rintro ⟨hmem, cells2, hiloc, hT⟩
              rcases List.mem_cons.mp hmem with rfl | hl
              · rw [hy] at hiloc
                cases hiloc
                exact absurd hT hc
              · exact ⟨hl, cells2, hiloc, hT⟩
  exact aux (python_round_mul ((df.cols.length : Int) - 1) t)
    (dfIndex df) res h l

theorem majority_missing_rows_tally_amended_witness :
    identify_rows_with_majority_missing_values dfDiagonalNa 1 = .ok [0, 1] ∧
    ((0 : Int) ∈ ([0, 1] : List Int) ↔
      ((0 : Int) ∈ dfIndex dfDiagonalNa ∧ ∃ cells,
        ilocRow dfDiagonalNa 0 = some cells ∧
        python_round_mul ((dfDiagonalNa.cols.length : Int) - 1) 1 ≤
          (rowNaCount cells : Int))) :=
  ⟨by decide,
    majority_missing_rows_tally_amended dfDiagonalNa 1 [0, 1] (by decide) 0⟩

/-! ## Claim C4: automatic cleanup is not idempotent -/

/-- Three rows over an id-like integer column and a string column with one
majority-missing row: the first automatic run drops the last row, leaving
column `E` single-valued. -/
def dfNonIdem : DataFrame :=
  ⟨[⟨"E", .int64⟩, ⟨"F", .objectType⟩],
   [(0, [.int 1, .str "x"]), (1, [.int 1, .str "y"]), (2, [.int 2, .na])]⟩

/-- The result of the first automatic cleanup of `dfNonIdem`. -/
def dfNonIdemOnce : DataFrame :=
  ⟨[⟨"E", .int64⟩, ⟨"F", .objectType⟩],
   [(0, [.int 1, .str "x"]), (1, [.int 1, .str "y"])]⟩

/-- C4 counterexample: on the dataset produced by the first automatic
cleanup, the second automatic cleanup finds a NON-empty single-value
candidate set (column `E` became single-valued once the majority-missing
row was gone) and drops that column, and then every remaining row: the
second run is not a no-op. -/
theorem cleanup_auto_not_idempotent_counterexample :
    cleanupAuto dfNonIdem = .ok dfNonIdemOnce ∧
    identify_single_value_columns dfNonIdemOnce = ["E"] ∧
    cleanupAuto dfNonIdemOnce = .ok ⟨[⟨"F", .objectType⟩], []⟩ := by
  decide

/-- C4 amended: classifications are re-evaluated on the mutated dataset, so
a second automatic cleanup can drop further columns or rows (see the
counterexample); it is a no-op precisely on already-stable dataframes:
when duplicate-row removal does nothing and all four classifier candidate
sets are empty, automatic cleanup returns the dataframe unchanged. -/
theorem cleanup_auto_stable_of_empty_candidates (df : DataFrame)
    (h0 : dropDuplicates df = df)
    (h1 : identify_single_value_columns df = [])
    (h2 : identify_potential_id_columns df = [])
    (h3 : identify_columns_with_majority_missing_values df
      default_threshold = [])
    (h4 : identify_rows_with_majority_missing_values df
      default_threshold = .ok []) :
    cleanupAuto df = .ok df := by
  simp [cleanupAuto, cleanup, cleanupRowsPhase, h0, h1, h2, h3, h4]

/-- A dataframe on which every cleanup rule finds nothing. -/
def dfStable : DataFrame :=
  ⟨[⟨"E", .int64⟩, ⟨"F", .objectType⟩],
   [(0, [.int 1, .str "x"]), (1, [.int 2, .str "y"])]⟩

theorem cleanup_auto_stable_of_empty_candidates_witness :
    dropDuplicates dfStable = dfStable ∧
    identify_single_value_columns dfStable = [] ∧
    identify_potential_id_columns dfStable = [] ∧
    identify_columns_with_majority_missing_values dfStable
      default_threshold = [] ∧
    identify_rows_with_majority_missing_values dfStable
      default_threshold = .ok [] ∧
    cleanupAuto dfStable = .ok dfStable :=
  ⟨by decide, by decide, by decide, by decide, by decide,
    cleanup_auto_stable_of_empty_candidates dfStable (by decide) (by decide)
      (by decide) (by decide) (by decide)⟩

/-! ## Claim C10: cleanup only removes, never rewrites -/

/-- Cell lookup by row label and column name (first match in each case). -/
def getCell (df : DataFrame) (l : Int) (c : String) : Option Value :=
  match df.rows.find? (fun r => r.1 == l) with
  | none => none
  | some r => ((df.cols.zip r.2).find? (fun p => p.1.name == c)).map Prod.snd

/-- Well-formedness: every row has exactly one cell per column. -/
def WF (df : DataFrame) : Prop := ∀ r ∈ df.rows, r.2.length = df.cols.length

/-- `df'` is obtained from `df` purely by deletion: every remaining column
exists in `df` (same name and dtype), every remaining row label exists in
`df`, and every surviving cell holds the identical value it held in `df`. -/
def SubFrame (df' df : DataFrame) : Prop :=
  (∀ c ∈ df'.cols, c ∈ df.cols) ∧ (∀ l ∈ dfIndex df', l ∈ dfIndex df) ∧
  (∀ l c v, getCell df' l c = some v → getCell df l c = some v)

theorem subFrame_refl (df : DataFrame) : SubFrame df df :=
  ⟨fun _ hc => hc, fun _ hl => hl, fun _ _ _ hv => hv⟩

theorem subFrame_trans {dfa dfb dfc : DataFrame} (h1 : SubFrame dfa dfb)
    (h2 : SubFrame dfb dfc) : SubFrame dfa dfc :=
  ⟨fun c hc => h2.1 c (h1.1 c hc), fun l hl => h2.2.1 l (h1.2.1 l hl),
   fun l c v hv => h2.2.2 l c v (h1.2.2 l c v hv)⟩

/-- With pairwise-distinct labels, `find?` by label returns the member row. -/
theorem find?_label_of_mem {rows : List (Int × List Value)}
    (hnodup : (rows.map Prod.fst).Nodup) {r : Int × List Value}
    (hr : r ∈ rows) : rows.find? (fun x => x.1 == r.1) = some r := by
  induction rows with
  | nil => cases hr
  | cons y rest ih =>
    simp only [List.map_cons, List.nodup_cons] at hnodup
    rcases List.mem_cons.mp hr with rfl | hr'
    · exact List.find?_cons_of_pos rest (by simp)
    · have hy : ¬ ((fun x : Int × List Value => x.1 == r.1) y = true) := by
        intro hbeq
        have heq : y.1 = r.1 := by simpa using hbeq
        exact hnodup.1 (heq ▸ List.mem_map_of_mem Prod.fst hr')
      rw [List.find?_cons_of_neg rest hy]
      exact ih hnodup.2 hr'

theorem subFrame_of_rows_subset {df' df : DataFrame}
    (hcols : df'.cols = df.cols) (hsub : ∀ r ∈ df'.rows, r ∈ df.rows)
    (hnodup : (dfIndex df).Nodup) : SubFrame df' df := by
  refine ⟨fun c hc => hcols ▸ hc, ?_, ?_⟩
  · intro l hl
    obtain ⟨r, hr, rfl⟩ := List.mem_map.mp hl
    exact List.mem_map_of_mem Prod.fst (hsub r hr)
  · intro l c v hv
    unfold getCell at hv ⊢
    cases hfind : df'.rows.find? (fun r => r.1 == l) with
    | none => rw [hfind] at hv; cases hv
    | some r =>
      rw [hfind] at hv
      have hrmem : r ∈ df'.rows := List.mem_of_find?_eq_some hfind
      have hr1 : r.1 = l := by
        have := List.find?_some hfind
        simpa using this
      have hfd : df.rows.find? (fun x => x.1 == l) = some r := by
        rw [← hr1]
        exact find?_label_of_mem hnodup (hsub r hrmem)
      rw [hfd, ← hcols]
      exact hv

theorem dropDupRowsAux_sublist :
    ∀ (rows : List (Int × List Value)) (seen : List (List Value)),
      List.Sublist (dropDupRowsAux seen rows) rows := by
  intro rows
  induction rows with
  | nil => intro seen; simp [dropDupRowsAux]
  | cons r rest ih =>
    intro seen
    simp only [dropDupRowsAux]
    split_ifs with h
    · exact List.Sublist.cons r (ih seen)
    · exact List.Sublist.cons₂ r (ih (r.2 :: seen))

theorem dropDuplicates_subFrame (df : DataFrame)
    (hnodup : (dfIndex df).Nodup) : SubFrame (dropDuplicates df) df :=
  subFrame_of_rows_subset rfl
    (fun _r hr => (dropDupRowsAux_sublist df.rows []).subset hr) hnodup

theorem dropDuplicates_index_nodup (df : DataFrame)
    (h : (dfIndex df).Nodup) : (dfIndex (dropDuplicates df)).Nodup :=
  List.Nodup.sublist ((dropDupRowsAux_sublist df.rows []).map Prod.fst) h

theorem dropDuplicates_wf (df : DataFrame) (h : WF df) :
    WF (dropDuplicates df) :=
  fun r hr => h r ((dropDupRowsAux_sublist df.rows []).subset hr)

theorem dropRowsByLabel_subFrame {df df' : DataFrame} {labels : List Int}
    (h : dropRowsByLabel df labels = .ok df')
    (hnodup : (dfIndex df).Nodup) : SubFrame df' df := by
  unfold dropRowsByLabel at h
  split_ifs at h
  cases h
  exact subFrame_of_rows_subset rfl
    (fun _r hr => List.mem_of_mem_filter hr) hnodup

theorem dropColumns_index (df : DataFrame) (names : List String) :
    dfIndex (dropColumns df names) = dfIndex df := by
  simp [dropColumns, dfIndex, List.map_map, Function.comp_def]

/-- `find?` by label commutes with a per-row transformation that preserves
the label. -/
theorem findConsPos {A : Type} (p : A → Bool) (a : A) (l : List A)
    (h : p a = true) : (a :: l).find? p = some a :=
  List.find?_cons_of_pos l h

theorem findConsNeg {A : Type} (p : A → Bool) (a : A) (l : List A)
    (h : ¬ p a = true) : (a :: l).find? p = l.find? p :=
  List.find?_cons_of_neg l h

theorem find?_label_map_proj (rows : List (Int × List Value))
    (g : (Int × List Value) → List Value) (l : Int) :
    (rows.map (fun r => (r.1, g r))).find? (fun r => r.1 == l) =
      (rows.find? (fun r => r.1 == l)).map (fun r => (r.1, g r)) := by
  induction rows with
  | nil => rfl
  | cons r rest ih =>
    simp only [List.map_cons]
    by_cases h : ((fun x : Int × List Value => x.1 == l) r = true)
    · rw [findConsPos (fun x : Int × List Value => x.1 == l) (r.1, g r)
          (rest.map (fun r => (r.1, g r))) h,
        findConsPos (fun x : Int × List Value => x.1 == l) r rest h]
      rfl
    · rw [findConsNeg (fun x : Int × List Value => x.1 == l) (r.1, g r)
          (rest.map (fun r => (r.1, g r))) h,
        findConsNeg (fun x : Int × List Value => x.1 == l) r rest h]
      exact ih

/-- The column-lookup after a name-based column drop agrees with the lookup
before it, for any surviving column name. -/
theorem find_zip_filter (keep : String → Bool) (c : String)
    (hc : keep c = true) :
    ∀ (cols : List Col) (cells : List Value), cells.length = cols.length →
      ((cols.filter (fun col => keep col.name)).zip
         (((cols.zip cells).filter (fun p => keep p.1.name)).map
           Prod.snd)).find? (fun p => p.1.name == c)
      = (cols.zip cells).find? (fun p => p.1.name == c) := by
  intro cols
  induction cols with
  | nil =>
    intro cells _
    simp
  | cons col cs ih =>
    intro cells hlen
    cases cells with
    | nil => simp at hlen
    | cons v vs =>
      have hlen' : vs.length = cs.length := by simpa using hlen
      simp only [List.zip_cons_cons, List.filter_cons]
      by_cases hk : keep col.name
      · rw [if_pos hk, if_pos hk]
        simp only [List.map_cons, List.zip_cons_cons]
        by_cases hname : ((fun p : Col × Value => p.1.name == c) (col, v)
            = true)
        · rw [findConsPos (fun p : Col × Value => p.1.name == c) (col, v)
              ((cs.filter (fun col => keep col.name)).zip
                (((cs.zip vs).filter (fun p => keep p.1.name)).map
                  Prod.snd)) hname,
            findConsPos (fun p : Col × Value => p.1.name == c) (col, v)
              (cs.zip vs) hname]
        · rw [findConsNeg (fun p : Col × Value => p.1.name == c) (col, v)
              ((cs.filter (fun col => keep col.name)).zip
                (((cs.zip vs).filter (fun p => keep p.1.name)).map
                  Prod.snd)) hname,
            findConsNeg (fun p : Col × Value => p.1.name == c) (col, v)
              (cs.zip vs) hname]
          exact ih vs hlen'
      · rw [if_neg hk, if_neg hk]
        have hname : ¬ ((fun p : Col × Value => p.1.name == c) (col, v)
            = true) := by
          intro hbeq
          have hcc : col.name = c := by simpa using hbeq
          rw [← hcc] at hc
          exact hk hc
        rw [findConsNeg (fun p : Col × Value => p.1.name == c) (col, v)
          (cs.zip vs) hname]
        exact ih vs hlen'

theorem dropColumns_getCell {df : DataFrame} (names : List String)
    (hwf : WF df) (l : Int) (c : String) (v : Value)
    (hv : getCell (dropColumns df names) l c = some v) :
    getCell df l c = some v := by
  unfold getCell dropColumns at hv
  unfold getCell
  simp only at hv
  rw [find?_label_map_proj] at hv
  cases hfind : df.rows.find? (fun r => r.1 == l) with
  | none => rw [hfind] at hv; cases hv
  | some r =>
    rw [hfind] at hv
    simp only [Option.map_some'] at hv
    have hrmem : r ∈ df.rows := List.mem_of_find?_eq_some hfind
    have hlen : r.2.length = df.cols.length := hwf r hrmem
    have hkeepc : (fun s => !names.contains s) c = true := by
      cases hzfind : ((df.cols.filter
          (fun col => !names.contains col.name)).zip
            (((df.cols.zip r.2).filter
              (fun p => !names.contains p.1.name)).map Prod.snd)).find?
          (fun p => p.1.name == c) with
      | none => rw [hzfind] at hv; cases hv
      | some pair =>
        have hmem := List.mem_of_find?_eq_some hzfind
        have hp1 : pair.1 ∈ df.cols.filter
            (fun col => !names.contains col.name) :=
          (List.of_mem_zip hmem).1
        have hkeep : (!names.contains pair.1.name) = true :=
          (List.mem_filter.mp hp1).2
        have hname : pair.1.name = c := by
          have := List.find?_some hzfind
          simpa using this
        rw [← hname]
        exact hkeep
    rw [find_zip_filter (fun s => !names.contains s) c hkeepc df.cols r.2
      hlen] at hv
    exact hv

theorem dropColumns_subFrame (df : DataFrame) (names : List String)
    (hwf : WF df) : SubFrame (dropColumns df names) df :=
  ⟨fun c hc => List.mem_of_mem_filter hc,
   fun l hl => by rwa [dropColumns_index df names] at hl,
   fun l c v hv => dropColumns_getCell names hwf l c v hv⟩

theorem cleanupRowsPhase_subFrame {dfB df' : DataFrame} {auto : Bool}
    {inputs1 : List String}
    (h : cleanupRowsPhase dfB auto inputs1 = .ok df')
    (hnd : (dfIndex dfB).Nodup) : SubFrame df' dfB := by
  simp only [cleanupRowsPhase] at h
  split at h
  · exact Except.noConfusion h
  · split_ifs at h <;>
      first
        | (cases h; exact subFrame_refl _)
        | exact dropRowsByLabel_subFrame h hnd
        | (split at h <;>
            first
              | exact Except.noConfusion h
              | (split at h <;> exact Except.noConfusion h))

/-- C10: whenever `cleanup` (in either mode, under any scripted instruction
responses) terminates normally on a well-formed dataframe with distinct row
labels, the result is a pure sub-frame of the input: every surviving column
existed with the same name and dtype, every surviving row label existed,
and every surviving cell holds exactly the value it held before — cleanup
only deletes, it never adds or rewrites data. -/
theorem cleanup_only_removes (df0 : DataFrame) (auto : Bool)
    (inputs : List String) (df' : DataFrame) (hwf : WF df0)
    (hnd : (dfIndex df0).Nodup)
    (h : cleanup df0 auto inputs = .ok df') : SubFrame df' df0 := by
  have hA : SubFrame (dropDuplicates df0) df0 :=
    dropDuplicates_subFrame df0 hnd
  have hndA : (dfIndex (dropDuplicates df0)).Nodup :=
    dropDuplicates_index_nodup df0 hnd
  have hwfA : WF (dropDuplicates df0) := dropDuplicates_wf df0 hwf
  have hB : ∀ (cond : Bool) (names : List String),
      SubFrame (if cond then dropDuplicates df0
        else dropColumns (dropDuplicates df0) names) (dropDuplicates df0) ∧
      (dfIndex (if cond then dropDuplicates df0
        else dropColumns (dropDuplicates df0) names)).Nodup := by
    intro cond names
    cases cond
    · rw [if_neg (by decide : ¬ (false = true))]
      exact ⟨dropColumns_subFrame (dropDuplicates df0) names hwfA,
        by rw [dropColumns_index]; exact hndA⟩
    · rw [if_pos rfl]
      exact ⟨subFrame_refl (dropDuplicates df0), hndA⟩
  simp only [cleanup] at h
  have hphase := cleanupRowsPhase_subFrame h ((hB _ _).2)
  exact subFrame_trans (subFrame_trans hphase (hB _ _).1) hA

/-- A small well-formed dataframe for exercising `cleanup_only_removes`. -/
def dfFrameWitness : DataFrame :=
  ⟨[⟨"A", .objectType⟩], [(0, [.str "u"])]⟩

theorem cleanup_only_removes_witness :
    WF dfFrameWitness ∧ (dfIndex dfFrameWitness).Nodup ∧
      SubFrame ⟨[], []⟩ dfFrameWitness := by
  have hwf : WF dfFrameWitness := by
    intro r hr
    fin_cases hr
    rfl
  exact ⟨hwf, by decide,
    cleanup_only_removes dfFrameWitness true [] ⟨[], []⟩ hwf
      (by decide) (by decide)⟩
